import Mathlib

/-!
Verification development for the delta-sampling CPU engine of perf-monitor-rs.

The embedding models machine integers as natural numbers with explicit
wrapping or saturation where the source performs it, Rust `Duration` values
as natural numbers of nanoseconds, `Instant` values as natural numbers of
nanoseconds of a monotonic clock, and `f64` results of the ratio
computations as exact rationals extended with infinities and a NaN marker
(IEEE division by a positive zero denominator yields the corresponding
infinity, and zero by zero yields NaN; rounding of finite values is
abstracted to exact rational arithmetic, which preserves the sign, zero
and finiteness facts the claims are about).

Fallible snapshot acquisition (syscalls, /proc reads, normalization) is
passed to each operation as an `Except Err` argument; the mutable
`last_stat` cell of a handle is threaded as explicit state, so each Rust
method `fn f(&self) -> Result<T>` becomes a Lean function
`state -> snapshot -> (state, Except Err T)`.
-/

/-- Largest value of a 64-bit unsigned machine word. -/
def u64Max : ℕ := 2 ^ 64 - 1

/-- Reduction into the 64-bit range, as Rust release-mode wrapping arithmetic. -/
def u64mod (n : ℕ) : ℕ := n % 2 ^ 64

/-- Rust `u64` subtraction with overflow checks off: wraps modulo `2 ^ 64` on
underflow (in debug builds the same expression panics; either way it does not
saturate). -/
def u64sub (a b : ℕ) : ℕ := (a + (2 ^ 64 - b % 2 ^ 64)) % 2 ^ 64

/-- Rust `u64` addition with overflow checks off: wraps modulo `2 ^ 64`. -/
def u64add (a b : ℕ) : ℕ := (a + b) % 2 ^ 64

/-- Rust `u64::saturating_mul`: clamps at `u64::MAX` instead of wrapping. -/
def u64satMul (a b : ℕ) : ℕ := min (a * b) u64Max

/-- Rust `TryInto<u64>::try_into(x).unwrap_or(0)` on a signed integer:
a value outside the `u64` range (in particular any negative value) is
replaced by zero. -/
def u64OfInt (x : ℤ) : ℕ := if 0 ≤ x ∧ x ≤ (u64Max : ℤ) then x.toNat else 0

/-- Largest number of nanoseconds representable by a Rust `Duration`
(`u64::MAX` seconds plus `999_999_999` nanoseconds). -/
def durMax : ℕ := u64Max * 10 ^ 9 + 999999999

/-- Rust `Duration::saturating_add` on durations in nanoseconds. -/
def durSatAdd (a b : ℕ) : ℕ := min durMax (a + b)

/-- Rust `Duration::saturating_sub` on durations in nanoseconds: truncated
subtraction, flooring at zero. -/
def durSatSub (a b : ℕ) : ℕ := a - b

/-- Rust `Duration::from_secs` in nanoseconds. -/
def durFromSecs (s : ℕ) : ℕ := s * 10 ^ 9

/-- Rust `Duration::from_micros` in nanoseconds. -/
def durFromMicros (us : ℕ) : ℕ := us * 1000

/-- Rust `Duration::as_micros`: whole microseconds, fractional part dropped. -/
def durAsMicros (d : ℕ) : ℕ := d / 1000

/-- Rust `Duration::as_secs_f64`, abstracted to exact rational seconds. -/
def durAsSecsF64 (d : ℕ) : ℚ := (d : ℚ) / 10 ^ 9

/-- Rust `Instant::saturating_duration_since`: elapsed nanoseconds, floored
at zero when the supposedly earlier instant is in fact later. -/
def instSatDurSince (now old : ℕ) : ℕ := now - old

/-- An `f64` value as returned by the usage-ratio computations: a finite
rational, an infinity, or NaN. -/
inductive FVal where
| fin (q : ℚ)
| posInf
| negInf
| nan
deriving DecidableEq

/-- IEEE-754 division of two finite `f64` values (numerators and
denominators here are exact, with non-negative zero denominators as
produced by the duration conversions): a zero denominator yields an
infinity of the numerator's sign, or NaN for zero over zero. -/
def fdiv (x y : ℚ) : FVal :=
if y = 0 then (if x = 0 then FVal.nan else if 0 < x then FVal.posInf else FVal.negInf)
else FVal.fin (x / y)

/-- Error kinds surfaced by the sampling operations. -/
inductive Err where
| zeroTicksPerSecond
| negativeCputime
| osFailure
deriving DecidableEq

/-- `ProcessStat::cpu` from `src/cpu/mod.rs` (identical on every platform,
over the platform's `cpu_time` snapshot): reads a fresh normalized cpu time
and a fresh `Instant`, replaces the stored `last_stat` pair, computes the
wall delta with `saturating_duration_since`, the cpu delta with
`Duration::saturating_sub`, and returns their (unguarded) `f64` quotient.
On a snapshot error the state is left untouched. -/
def ProcessStat.cpu (st : ℕ × ℕ) (snap : Except Err ℕ) (now : ℕ) :
    (ℕ × ℕ) × Except Err FVal :=
match snap with
| Except.error e => (st, Except.error e)
| Except.ok c =>
    ((c, now),
     Except.ok (fdiv (durAsSecsF64 (durSatSub c st.1))
                     (durAsSecsF64 (instSatDurSince now st.2))))

/-- `ticks_to_seconds` from `src/cpu/android_linux.rs`: divides a tick count
by the cached ticks-per-second constant, failing if that constant is zero. -/
def AndroidLinux.ticks_to_seconds (tps : ℕ) (ticks : ℤ) : Except Err ℚ :=
if tps = 0 then Except.error Err.zeroTicksPerSecond
else Except.ok ((ticks : ℚ) / (tps : ℚ))

/-- `get_stat_cputime` from `src/cpu/android_linux.rs`: converts the four
fields `utime`, `stime` (unsigned) and `cutime`, `cstime` (signed) to
seconds independently, sums them, fails on a negative sum, and otherwise
returns the (absolute value of the) sum as a duration in seconds. -/
def AndroidLinux.get_stat_cputime (tps : ℕ) (utime stime : ℕ) (cutime cstime : ℤ) :
    Except Err ℚ := do
let u ← AndroidLinux.ticks_to_seconds tps (utime : ℤ)
let s ← AndroidLinux.ticks_to_seconds tps (stime : ℤ)
let cu ← AndroidLinux.ticks_to_seconds tps cutime
let cs ← AndroidLinux.ticks_to_seconds tps cstime
let total := u + s + cu + cs
if total < 0 then Except.error Err.negativeCputime
else Except.ok |total|

/-- `ThreadStat::cpu_usage` from `src/cpu/android_linux.rs`: signed cpu
delta (negative when the fresh cpu time is below the stored one), wall
delta via `saturating_duration_since`, unguarded `f64` quotient; state
replaced on success, untouched on snapshot error. -/
def AndroidLinux.ThreadStat.cpu_usage (st : ℕ × ℕ) (snap : Except Err ℕ) (now : ℕ) :
    (ℕ × ℕ) × Except Err FVal :=
match snap with
| Except.error e => (st, Except.error e)
| Except.ok cputime =>
    ((cputime, now),
     Except.ok (fdiv
       (if st.1 ≤ cputime then durAsSecsF64 (cputime - st.1)
        else -(durAsSecsF64 (st.1 - cputime)))
       (durAsSecsF64 (instSatDurSince now st.2))))

/-- `ThreadStat::cpu_time` from `src/cpu/android_linux.rs`: replaces the
stored pair and returns the cpu delta via `Duration::saturating_sub`. -/
def AndroidLinux.ThreadStat.cpu_time (st : ℕ × ℕ) (snap : Except Err ℕ) (now : ℕ) :
    (ℕ × ℕ) × Except Err ℕ :=
match snap with
| Except.error e => (st, Except.error e)
| Except.ok cputime => ((cputime, now), Except.ok (durSatSub cputime st.1))

/-- The Mach `time_value_t` structure: signed 32-bit seconds and
microseconds fields. -/
structure TimeValue where
  seconds : ℤ
  microseconds : ℤ
deriving DecidableEq

/-- The fields of `thread_basic_info_t` used by the sampler. -/
structure ThreadBasicInfo where
  user_time : TimeValue
  system_time : TimeValue
deriving DecidableEq

/-- `time_value_to_duration` from `src/cpu/ios_macos.rs`: converts the
seconds and microseconds fields independently (`try_into().unwrap_or(0)`
clamps a negative or out-of-range field to zero) and combines them with
`Duration::saturating_add`. -/
def IosMacos.time_value_to_duration (t : TimeValue) : ℕ :=
durSatAdd (durFromSecs (u64OfInt t.seconds)) (durFromMicros (u64OfInt t.microseconds))

/-- `ThreadStat::cpu_usage` from `src/cpu/ios_macos.rs`: per-field
saturating cpu deltas, wall delta via `saturating_duration_since` in whole
microseconds with a 1-microsecond floor on the denominator, then the `f64`
quotient of the microsecond counts. -/
def IosMacos.ThreadStat.cpu_usage (st : ThreadBasicInfo × ℕ)
    (snap : Except Err ThreadBasicInfo) (now : ℕ) :
    (ThreadBasicInfo × ℕ) × Except Err FVal :=
match snap with
| Except.error e => (st, Except.error e)
| Except.ok stat =>
    let dt_utime := durSatSub (IosMacos.time_value_to_duration stat.user_time)
                              (IosMacos.time_value_to_duration st.1.user_time)
    let dt_stime := durSatSub (IosMacos.time_value_to_duration stat.system_time)
                              (IosMacos.time_value_to_duration st.1.system_time)
    let dt_cputime_micros := durAsMicros (durSatAdd dt_utime dt_stime)
    let dt0 := durAsMicros (instSatDurSince now st.2)
    let dt_duration_micros := if dt0 = 0 then 1 else dt0
    ((stat, now),
     Except.ok (fdiv (dt_cputime_micros : ℚ) (dt_duration_micros : ℚ)))

/-- `ThreadStat::cpu_time` from `src/cpu/ios_macos.rs`: per-field
saturating cpu deltas combined with `Duration::saturating_add`. -/
def IosMacos.ThreadStat.cpu_time (st : ThreadBasicInfo × ℕ)
    (snap : Except Err ThreadBasicInfo) (now : ℕ) :
    (ThreadBasicInfo × ℕ) × Except Err ℕ :=
match snap with
| Except.error e => (st, Except.error e)
| Except.ok stat =>
    let dt_utime := durSatSub (IosMacos.time_value_to_duration stat.user_time)
                              (IosMacos.time_value_to_duration st.1.user_time)
    let dt_stime := durSatSub (IosMacos.time_value_to_duration stat.system_time)
                              (IosMacos.time_value_to_duration st.1.system_time)
    ((stat, now), Except.ok (durSatAdd dt_utime dt_stime))

/-- Big-endian byte decomposition of a 32-bit word
(`u32::to_be_bytes` in `filetime_to_ns100`). -/
def toBeBytes4 (x : ℕ) : List ℕ :=
[x / 2 ^ 24 % 2 ^ 8, x / 2 ^ 16 % 2 ^ 8, x / 2 ^ 8 % 2 ^ 8, x % 2 ^ 8]

/-- Big-endian reassembly of eight bytes into a 64-bit word
(`u64::from_be_bytes` in `filetime_to_ns100`). -/
def fromBeBytes8 (bs : List ℕ) : ℕ :=
bs.foldl (fun a b => a * 2 ^ 8 + b) 0

/-- `filetime_to_ns100` from `src/cpu/windows/mod.rs`: splits the high and
low `FILETIME` words into big-endian bytes, concatenates them, and reads
the eight bytes back as one big-endian 64-bit value in 100-ns units. -/
def filetime_to_ns100 (high low : ℕ) : ℕ :=
fromBeBytes8 (toBeBytes4 high ++ toBeBytes4 low)

/-- `ThreadStat::cpu` from `src/cpu/windows/mod.rs`: replaces the stored
(work, total) pair, returns `0.0` when the total-time delta is zero, and
otherwise the work delta over the total delta times the processor count.
Both deltas use unchecked `u64` subtraction (wrapping in release builds). -/
def Windows.ThreadStat.cpu (st : ℕ × ℕ) (snap : Except Err (ℕ × ℕ)) (cpus : ℕ) :
    (ℕ × ℕ) × Except Err FVal :=
match snap with
| Except.error e => (st, Except.error e)
| Except.ok wt =>
    let dt_total_time := u64sub wt.2 st.2
    if dt_total_time = 0 then (wt, Except.ok (FVal.fin 0))
    else
      let dt_work_time := u64sub wt.1 st.1
      (wt, Except.ok (FVal.fin ((dt_work_time : ℚ) / (dt_total_time : ℚ) * (cpus : ℚ))))

/-- `ThreadStat::cpu_time` from `src/cpu/windows/mod.rs`: replaces the
stored pair and returns `Duration::from_nanos` of the work-time delta,
where the delta is unchecked `u64` subtraction of 100-ns-unit counters. -/
def Windows.ThreadStat.cpu_time (st : ℕ × ℕ) (snap : Except Err (ℕ × ℕ)) :
    (ℕ × ℕ) × Except Err ℕ :=
match snap with
| Except.error e => (st, Except.error e)
| Except.ok wt => (wt, Except.ok (u64sub wt.1 st.1))

/-- The free function `cpu_time` from `src/cpu/windows/mod.rs`: reassembles
the kernel and user `FILETIME` pairs, adds them (unchecked), scales the
100-ns count to nanoseconds with `saturating_mul(100)`, then multiplies by
the logical-processor count (unchecked). -/
def Windows.cpu_time (kh kl uh ul cpus : ℕ) : ℕ :=
let kt := filetime_to_ns100 kh kl
let ut := filetime_to_ns100 uh ul
let c := u64satMul (u64add kt ut) 100
u64mod (c * cpus)

/-- `ProcessStat::cpu` as instantiated on Windows: the generic delta logic
of `src/cpu/mod.rs` consuming the cpus-scaled `cpu_time` snapshots of
`src/cpu/windows/mod.rs`. -/
def Windows.processCpuOnWindows (st : ℕ × ℕ) (ft : Except Err (ℕ × ℕ × ℕ × ℕ))
    (cpus now : ℕ) : (ℕ × ℕ) × Except Err FVal :=
ProcessStat.cpu st
  (ft.map (fun f => Windows.cpu_time f.1 f.2.1 f.2.2.1 f.2.2.2 cpus)) now

lemma fdiv_fin (x y : ℚ) (hy : y ≠ 0) : fdiv x y = FVal.fin (x / y) := by
  rw [fdiv, if_neg hy]

lemma fdiv_nan_of_eq (x : ℚ) (hx : x = 0) : fdiv x 0 = FVal.nan := by
  rw [fdiv, if_pos rfl, if_pos hx]

lemma fdiv_posInf_of_pos (x : ℚ) (hx : 0 < x) : fdiv x 0 = FVal.posInf := by
  rw [fdiv, if_pos rfl, if_neg hx.ne', if_pos hx]

lemma fdiv_negInf_of_neg (x : ℚ) (hx : x < 0) : fdiv x 0 = FVal.negInf := by
  rw [fdiv, if_pos rfl, if_neg hx.ne, if_neg (not_lt.mpr hx.le)]

lemma durAsSecsF64_nonneg (d : ℕ) : 0 ≤ durAsSecsF64 d := by
  unfold durAsSecsF64
  positivity

lemma durAsSecsF64_pos (d : ℕ) (hd : 0 < d) : 0 < durAsSecsF64 d := by
  unfold durAsSecsF64
  have : (0 : ℚ) < (d : ℚ) := by exact_mod_cast hd
  positivity

lemma durAsSecsF64_zero : durAsSecsF64 0 = 0 := by
  unfold durAsSecsF64
  norm_num

lemma u64sub_self (a : ℕ) : u64sub a a = 0 := by
  unfold u64sub
  omega

/-- Claim C1 counterexample: the claim asserts no usage-sampling operation
silently returns NaN or Infinity on a zero elapsed wall delta, but
`ProcessStat::cpu`, sampled again with the same wall instant and an
unchanged cpu counter, returns `Ok(0.0 / 0.0) = Ok(NaN)` with no guard. -/
theorem C1_counterexample :
    (ProcessStat.cpu (0, 5) (Except.ok 0) 5).2 = Except.ok FVal.nan := by
  simp [ProcessStat.cpu, durAsSecsF64, durSatSub, instSatDurSince, fdiv]

/-- Claim C1, amended: the zero-wall-delta guard exists only on two of the
four paths. The seconds+microseconds `ThreadStat::cpu_usage` always returns
a finite ratio (it floors the denominator at one microsecond), and the
100-ns `ThreadStat::cpu` returns the sentinel `0.0` when the total-time
delta is zero; but `ProcessStat::cpu` and the tick-based
`ThreadStat::cpu_usage` divide unguarded and, on a zero wall delta, return
NaN (zero cpu delta) or an infinity (nonzero cpu delta) wrapped in `Ok`. -/
theorem C1_amended :
    (∀ st stat now, ∃ q : ℚ,
        (IosMacos.ThreadStat.cpu_usage st (Except.ok stat) now).2
          = Except.ok (FVal.fin q))
  ∧ (∀ st w cpus, (Windows.ThreadStat.cpu st (Except.ok (w, st.2)) cpus).2
        = Except.ok (FVal.fin 0))
  ∧ (∀ st c now, now ≤ st.2 →
        (ProcessStat.cpu st (Except.ok c) now).2 = Except.ok FVal.nan ∨
        (ProcessStat.cpu st (Except.ok c) now).2 = Except.ok FVal.posInf)
  ∧ (∀ st c now, now ≤ st.2 →
        (AndroidLinux.ThreadStat.cpu_usage st (Except.ok c) now).2 = Except.ok FVal.nan ∨
        (AndroidLinux.ThreadStat.cpu_usage st (Except.ok c) now).2 = Except.ok FVal.posInf ∨
        (AndroidLinux.ThreadStat.cpu_usage st (Except.ok c) now).2 = Except.ok FVal.negInf) := by
  refine ⟨?_, ?_, ?_, ?_⟩
  · intro st stat now
    simp only [IosMacos.ThreadStat.cpu_usage]
    rcases eq_or_ne (durAsMicros (instSatDurSince now st.2)) 0 with h | h
    · rw [if_pos h]
      exact ⟨_, congrArg Except.ok (fdiv_fin _ _ (by norm_num))⟩
    · rw [if_neg h]
      exact ⟨_, congrArg Except.ok (fdiv_fin _ _ (by exact_mod_cast h))⟩
  · intro st w cpus
    simp only [Windows.ThreadStat.cpu]
    rw [if_pos (u64sub_self st.2)]
  · intro st c now h
    simp only [ProcessStat.cpu]
    rw [show instSatDurSince now st.2 = 0 from Nat.sub_eq_zero_of_le h,
        durAsSecsF64_zero]
    rcases eq_or_lt_of_le (durAsSecsF64_nonneg (durSatSub c st.1)) with hx | hx
    · left
      rw [fdiv_nan_of_eq _ hx.symm]
    · right
      rw [fdiv_posInf_of_pos _ hx]
  · intro st c now h
    simp only [AndroidLinux.ThreadStat.cpu_usage]
    rw [show instSatDurSince now st.2 = 0 from Nat.sub_eq_zero_of_le h,
        durAsSecsF64_zero]
    rcases lt_trichotomy
        (if st.1 ≤ c then durAsSecsF64 (c - st.1) else -(durAsSecsF64 (st.1 - c)))
        0 with hx | hx | hx
    · right; right
      rw [fdiv_negInf_of_neg _ hx]
    · left
      rw [fdiv_nan_of_eq _ hx]
    · right; left
      rw [fdiv_posInf_of_pos _ hx]

/-- Witness for the amended claim C1 at concrete inputs. -/
theorem C1_witness :
    (5 : ℕ) ≤ 5 ∧
      ((ProcessStat.cpu (0, 5) (Except.ok 1) 5).2 = Except.ok FVal.nan ∨
       (ProcessStat.cpu (0, 5) (Except.ok 1) 5).2 = Except.ok FVal.posInf) :=
  ⟨le_refl 5, C1_amended.2.2.1 (0, 5) 1 5 (le_refl 5)⟩

/-- Claim C2: on the tick-based platform, when the fresh thread cpu time is
strictly below the stored one, `ThreadStat::cpu_usage` takes the signed
(not saturating) difference and returns the negated duration difference
divided by the wall delta — a negative ratio. -/
theorem C2_theorem (st : ℕ × ℕ) (c now : ℕ) (hc : c < st.1) (hw : st.2 < now) :
    (AndroidLinux.ThreadStat.cpu_usage st (Except.ok c) now).2
      = Except.ok (FVal.fin
          (-(durAsSecsF64 (st.1 - c)) / durAsSecsF64 (instSatDurSince now st.2)))
    ∧ -(durAsSecsF64 (st.1 - c)) / durAsSecsF64 (instSatDurSince now st.2) < 0 := by
  have hden : (0 : ℚ) < durAsSecsF64 (instSatDurSince now st.2) :=
    durAsSecsF64_pos _ (by unfold instSatDurSince; omega)
  have hnum : -(durAsSecsF64 (st.1 - c)) < 0 :=
    neg_neg_of_pos (durAsSecsF64_pos _ (by omega))
  constructor
  · simp only [AndroidLinux.ThreadStat.cpu_usage]
    rw [if_neg (not_le.mpr hc), fdiv_fin _ _ hden.ne']
  · exact div_neg_of_neg_of_pos hnum hden

/-- Witness for claim C2 at concrete inputs. -/
theorem C2_witness :
    (1 : ℕ) < 3 ∧ (0 : ℕ) < 2 ∧
      ((AndroidLinux.ThreadStat.cpu_usage (3, 0) (Except.ok 1) 2).2
          = Except.ok (FVal.fin
              (-(durAsSecsF64 ((3, 0).1 - 1)) / durAsSecsF64 (instSatDurSince 2 (3, 0).2)))
        ∧ -(durAsSecsF64 ((3, 0).1 - 1)) / durAsSecsF64 (instSatDurSince 2 (3, 0).2) < 0) :=
  ⟨by norm_num, by norm_num, C2_theorem (3, 0) 1 2 (by norm_num) (by norm_num)⟩

/-- Claim C3 counterexample: the claim asserts the 100-ns platform's
`ThreadStat::cpu_time` saturates its cpu-time subtraction at zero, but the
source uses unchecked `u64` subtraction: with stored work time 5 and a
fresh work time 0 the delta wraps to `2^64 - 5`, a huge value instead of
zero (and the same expression panics in a debug build). -/
theorem C3_counterexample :
    (Windows.ThreadStat.cpu_time (5, 0) (Except.ok (0, 10))).2 = Except.ok (2 ^ 64 - 5)
    ∧ (2 ^ 64 - 5 : ℕ) ≠ 0 := by
  constructor
  · simp only [Windows.ThreadStat.cpu_time]
    norm_num [u64sub]
  · norm_num

/-- Claim C3, amended: the new-minus-old cpu-time subtraction saturates at
zero for `ProcessStat::cpu` (every platform) and, per counter field, for
the seconds+microseconds `ThreadStat::cpu_usage` and `ThreadStat::cpu_time`
(a regression yields a zero delta and a zero ratio); but the 100-ns
platform's `ThreadStat::cpu` and `ThreadStat::cpu_time` use unchecked `u64`
subtraction, so a counter regression wraps modulo `2^64` (release) or
panics (debug) rather than flooring at zero. -/
theorem C3_amended :
    (∀ st c now, c ≤ st.1 → st.2 < now →
        (ProcessStat.cpu st (Except.ok c) now).2 = Except.ok (FVal.fin 0))
  ∧ (∀ st stat now,
        IosMacos.time_value_to_duration stat.user_time
            ≤ IosMacos.time_value_to_duration st.1.user_time →
        IosMacos.time_value_to_duration stat.system_time
            ≤ IosMacos.time_value_to_duration st.1.system_time →
        (IosMacos.ThreadStat.cpu_usage st (Except.ok stat) now).2 = Except.ok (FVal.fin 0)
        ∧ (IosMacos.ThreadStat.cpu_time st (Except.ok stat) now).2 = Except.ok 0)
  ∧ (∀ st w t, w < st.1 → st.1 ≤ u64Max →
        (Windows.ThreadStat.cpu_time st (Except.ok (w, t))).2
          = Except.ok (2 ^ 64 - (st.1 - w)))
  ∧ (∀ st w t cpus, w < st.1 → st.1 ≤ u64Max → u64sub t st.2 ≠ 0 →
        (Windows.ThreadStat.cpu st (Except.ok (w, t)) cpus).2
          = Except.ok (FVal.fin
              (((2 ^ 64 - (st.1 - w) : ℕ) : ℚ) / ((u64sub t st.2 : ℕ) : ℚ) * (cpus : ℚ)))) := by
  refine ⟨?_, ?_, ?_, ?_⟩
  · intro st c now hc hw
    simp only [ProcessStat.cpu]
    have hz : durSatSub c st.1 = 0 := Nat.sub_eq_zero_of_le hc
    have hden : (0 : ℚ) < durAsSecsF64 (instSatDurSince now st.2) :=
      durAsSecsF64_pos _ (by unfold instSatDurSince; omega)
    rw [hz, durAsSecsF64_zero, fdiv_fin _ _ hden.ne', zero_div]
  · intro st stat now h1 h2
    have hu : durSatSub (IosMacos.time_value_to_duration stat.user_time)
        (IosMacos.time_value_to_duration st.1.user_time) = 0 := Nat.sub_eq_zero_of_le h1
    have hs : durSatSub (IosMacos.time_value_to_duration stat.system_time)
        (IosMacos.time_value_to_duration st.1.system_time) = 0 := Nat.sub_eq_zero_of_le h2
    have hz : durSatAdd 0 0 = 0 := by simp [durSatAdd]
    constructor
    · simp only [IosMacos.ThreadStat.cpu_usage, hu, hs, hz]
      have hm : durAsMicros 0 = 0 := by simp [durAsMicros]
      rw [hm]
      rcases eq_or_ne (durAsMicros (instSatDurSince now st.2)) 0 with h | h
      · rw [if_pos h, fdiv_fin _ _ (by norm_num)]
        norm_num
      · rw [if_neg h, fdiv_fin _ _ (by exact_mod_cast h)]
        norm_num
    · simp only [IosMacos.ThreadStat.cpu_time, hu, hs, hz]
  · intro st w t hw hmax
    have hsub : u64sub w st.1 = 2 ^ 64 - (st.1 - w) := by
      unfold u64sub u64Max at *
      omega
    simp only [Windows.ThreadStat.cpu_time, hsub]
  · intro st w t cpus hw hmax hdt
    have hsub : u64sub w st.1 = 2 ^ 64 - (st.1 - w) := by
      unfold u64sub u64Max at *
      omega
    simp only [Windows.ThreadStat.cpu]
    rw [if_neg hdt]
    simp only [hsub]

/-- Witness for the amended claim C3 at concrete inputs. -/
theorem C3_witness :
    ((3 : ℕ) ≤ 5 ∧ (0 : ℕ) < 2 ∧
       (ProcessStat.cpu (5, 0) (Except.ok 3) 2).2 = Except.ok (FVal.fin 0))
  ∧ (IosMacos.time_value_to_duration ⟨0, 0⟩ ≤ IosMacos.time_value_to_duration ⟨1, 0⟩
      ∧ ((IosMacos.ThreadStat.cpu_usage ((⟨⟨1, 0⟩, ⟨1, 0⟩⟩ : ThreadBasicInfo), 0)
            (Except.ok ⟨⟨0, 0⟩, ⟨0, 0⟩⟩) 7).2 = Except.ok (FVal.fin 0)
        ∧ (IosMacos.ThreadStat.cpu_time ((⟨⟨1, 0⟩, ⟨1, 0⟩⟩ : ThreadBasicInfo), 0)
            (Except.ok ⟨⟨0, 0⟩, ⟨0, 0⟩⟩) 7).2 = Except.ok 0))
  ∧ ((0 : ℕ) < 5 ∧ (5 : ℕ) ≤ u64Max ∧
       (Windows.ThreadStat.cpu_time (5, 0) (Except.ok (0, 10))).2
         = Except.ok (2 ^ 64 - (5 - 0)))
  ∧ (u64sub 10 0 ≠ 0 ∧
       (Windows.ThreadStat.cpu (5, 0) (Except.ok (0, 10)) 1).2
         = Except.ok (FVal.fin
             (((2 ^ 64 - (5 - 0) : ℕ) : ℚ) / ((u64sub 10 0 : ℕ) : ℚ) * ((1 : ℕ) : ℚ)))) := by
  have h : IosMacos.time_value_to_duration ⟨0, 0⟩ ≤ IosMacos.time_value_to_duration ⟨1, 0⟩ := by
    norm_num [IosMacos.time_value_to_duration, durSatAdd, durFromSecs, durFromMicros,
      u64OfInt, durMax, u64Max]
  have hdt : u64sub 10 0 ≠ 0 := by decide
  exact ⟨⟨by norm_num, by norm_num, C3_amended.1 (5, 0) 3 2 (by norm_num) (by norm_num)⟩,
         ⟨h, C3_amended.2.1 (⟨⟨1, 0⟩, ⟨1, 0⟩⟩, 0) ⟨⟨0, 0⟩, ⟨0, 0⟩⟩ 7 h h⟩,
         ⟨by norm_num, by norm_num [u64Max], C3_amended.2.2.1 (5, 0) 0 10 (by norm_num)
            (by norm_num [u64Max])⟩,
         ⟨hdt, C3_amended.2.2.2 (5, 0) 0 10 1 (by norm_num) (by norm_num [u64Max]) hdt⟩⟩

/-- Claim C4: every sampling operation, on every platform, propagates a
snapshot or normalization error unchanged and leaves the stored
`last_stat` pair exactly as it was, since the fallible reads all happen
before the `Cell::replace`. -/
theorem C4_theorem :
    (∀ st now e, ProcessStat.cpu st (Except.error e) now = (st, Except.error e))
  ∧ (∀ st now e, AndroidLinux.ThreadStat.cpu_usage st (Except.error e) now
        = (st, Except.error e))
  ∧ (∀ st now e, AndroidLinux.ThreadStat.cpu_time st (Except.error e) now
        = (st, Except.error e))
  ∧ (∀ st now e, IosMacos.ThreadStat.cpu_usage st (Except.error e) now
        = (st, Except.error e))
  ∧ (∀ st now e, IosMacos.ThreadStat.cpu_time st (Except.error e) now
        = (st, Except.error e))
  ∧ (∀ st cpus e, Windows.ThreadStat.cpu st (Except.error e) cpus
        = (st, Except.error e))
  ∧ (∀ st e, Windows.ThreadStat.cpu_time st (Except.error e) = (st, Except.error e)) := by
  refine ⟨?_, ?_, ?_, ?_, ?_, ?_, ?_⟩ <;> intros <;> rfl

/-- Witness for claim C4 at concrete inputs. -/
theorem C4_witness :
    ProcessStat.cpu (1, 2) (Except.error Err.osFailure) 3
      = ((1, 2), Except.error Err.osFailure) :=
  C4_theorem.1 (1, 2) 3 Err.osFailure

/-- Claim C5: on the timestamp-based platforms the wall-clock delta is
`saturating_duration_since`: whenever the fresh instant is at or before the
stored one the delta is exactly zero (never a wrapped huge value, no
panic), and both `ProcessStat::cpu` and the tick-based
`ThreadStat::cpu_usage` then divide by an exactly-zero wall time. -/
theorem C5_theorem :
    (∀ now old, now ≤ old → instSatDurSince now old = 0)
  ∧ (∀ st c now, now ≤ st.2 →
        (ProcessStat.cpu st (Except.ok c) now).2
          = Except.ok (fdiv (durAsSecsF64 (durSatSub c st.1)) (durAsSecsF64 0)))
  ∧ (∀ st c now, now ≤ st.2 →
        (AndroidLinux.ThreadStat.cpu_usage st (Except.ok c) now).2
          = Except.ok (fdiv
              (if st.1 ≤ c then durAsSecsF64 (c - st.1) else -(durAsSecsF64 (st.1 - c)))
              (durAsSecsF64 0))) := by
  refine ⟨fun now old h => Nat.sub_eq_zero_of_le h, ?_, ?_⟩
  · intro st c now h
    simp only [ProcessStat.cpu]
    rw [show instSatDurSince now st.2 = 0 from Nat.sub_eq_zero_of_le h]
  · intro st c now h
    simp only [AndroidLinux.ThreadStat.cpu_usage]
    rw [show instSatDurSince now st.2 = 0 from Nat.sub_eq_zero_of_le h]

/-- Witness for claim C5 at concrete inputs. -/
theorem C5_witness :
    (3 : ℕ) ≤ 7 ∧ instSatDurSince 3 7 = 0 ∧
      (ProcessStat.cpu (2, 7) (Except.ok 9) 3).2
        = Except.ok (fdiv (durAsSecsF64 (durSatSub 9 2)) (durAsSecsF64 0)) :=
  ⟨by norm_num, C5_theorem.1 3 7 (by norm_num), C5_theorem.2.1 (2, 7) 9 3 (by norm_num)⟩

/-- Claim C6, code bug: `filetime_to_ns100` does reassemble the two words
into `high * 2^32 + low` honoring byte order, and the process-level
`cpu_time` does scale the 100-ns count to nanoseconds with
`saturating_mul(100)`; but `ThreadStat::cpu_time` passes its 100-ns-unit
delta straight to `Duration::from_nanos` with no multiply by 100: a
10000-unit (1 ms) work-time delta comes back as a 10000 ns duration,
one hundred times too small, while the process-level accessor returns
1000000 ns for the same count. -/
theorem C6_code_bug :
    filetime_to_ns100 1 2 = 2 ^ 32 + 2
  ∧ (Windows.ThreadStat.cpu_time (0, 0) (Except.ok (10000, 50))).2 = Except.ok 10000
  ∧ Windows.cpu_time 0 10000 0 0 1 = 1000000 := by
  refine ⟨by decide, ?_, by decide⟩
  simp only [Windows.ThreadStat.cpu_time]
  norm_num [u64sub]

/-- Claim C7 counterexample: the claim says the ratio returned by
`ProcessStat::cpu` never includes the logical-processor-count factor, but
on Windows the handle consumes the cpus-scaled `cpu_time` snapshots: the
same raw FILETIME reading over the same one-second interval yields a ratio
twice as large with 2 logical processors as with 1 — the factor is baked
into the returned ratio. -/
theorem C7_counterexample :
    (Windows.processCpuOnWindows (0, 0) (Except.ok (0, 0, 0, 1)) 2 (10 ^ 9)).2
      = Except.ok (FVal.fin (200 / 10 ^ 9))
  ∧ (Windows.processCpuOnWindows (0, 0) (Except.ok (0, 0, 0, 1)) 1 (10 ^ 9)).2
      = Except.ok (FVal.fin (100 / 10 ^ 9))
  ∧ (200 / 10 ^ 9 : ℚ) = 2 * (100 / 10 ^ 9)
  ∧ (200 / 10 ^ 9 : ℚ) ≠ 100 / 10 ^ 9 := by
  have h2 : Windows.cpu_time 0 0 0 1 2 = 200 := by decide
  have h1 : Windows.cpu_time 0 0 0 1 1 = 100 := by decide
  refine ⟨?_, ?_, by norm_num, by norm_num⟩
  · simp only [Windows.processCpuOnWindows, Except.map, h2, ProcessStat.cpu]
    norm_num [durSatSub, instSatDurSince, durAsSecsF64, fdiv]
  · simp only [Windows.processCpuOnWindows, Except.map, h1, ProcessStat.cpu]
    norm_num [durSatSub, instSatDurSince, durAsSecsF64, fdiv]

/-- Claim C7, amended: on Windows the absolute process-level `cpu_time`
accessor multiplies the un-deltaed cpu time by the logical-processor count
(first conjunct, absent overflow); `ProcessStat::cpu` applies no factor of
its own, but because on Windows it consumes those scaled snapshots, the
ratio it returns carries the processor-count factor inherited from
`cpu_time` (second conjunct: the cpus factor appears in the returned
ratio). -/
theorem C7_amended :
    (∀ kh kl uh ul cpus,
        filetime_to_ns100 kh kl + filetime_to_ns100 uh ul ≤ u64Max →
        (filetime_to_ns100 kh kl + filetime_to_ns100 uh ul) * 100 ≤ u64Max →
        (filetime_to_ns100 kh kl + filetime_to_ns100 uh ul) * 100 * cpus ≤ u64Max →
        Windows.cpu_time kh kl uh ul cpus
          = (filetime_to_ns100 kh kl + filetime_to_ns100 uh ul) * 100 * cpus)
  ∧ (∀ kh kl uh ul cpus now,
        0 < now →
        filetime_to_ns100 kh kl + filetime_to_ns100 uh ul ≤ u64Max →
        (filetime_to_ns100 kh kl + filetime_to_ns100 uh ul) * 100 ≤ u64Max →
        (filetime_to_ns100 kh kl + filetime_to_ns100 uh ul) * 100 * cpus ≤ u64Max →
        (Windows.processCpuOnWindows (0, 0) (Except.ok (kh, kl, uh, ul)) cpus now).2
          = Except.ok (FVal.fin
              ((((filetime_to_ns100 kh kl + filetime_to_ns100 uh ul) * 100 * cpus : ℕ) : ℚ)
                / ((now : ℕ) : ℚ)))) := by
  have hcpu : ∀ kh kl uh ul cpus,
      filetime_to_ns100 kh kl + filetime_to_ns100 uh ul ≤ u64Max →
      (filetime_to_ns100 kh kl + filetime_to_ns100 uh ul) * 100 ≤ u64Max →
      (filetime_to_ns100 kh kl + filetime_to_ns100 uh ul) * 100 * cpus ≤ u64Max →
      Windows.cpu_time kh kl uh ul cpus
        = (filetime_to_ns100 kh kl + filetime_to_ns100 uh ul) * 100 * cpus := by
    intro kh kl uh ul cpus h1 h2 h3
    have e1 : u64add (filetime_to_ns100 kh kl) (filetime_to_ns100 uh ul)
        = filetime_to_ns100 kh kl + filetime_to_ns100 uh ul := by
      unfold u64add
      unfold u64Max at h1
      omega
    have e2 : u64satMul (filetime_to_ns100 kh kl + filetime_to_ns100 uh ul) 100
        = (filetime_to_ns100 kh kl + filetime_to_ns100 uh ul) * 100 := by
      unfold u64satMul
      exact min_eq_left h2
    have e3 : u64mod ((filetime_to_ns100 kh kl + filetime_to_ns100 uh ul) * 100 * cpus)
        = (filetime_to_ns100 kh kl + filetime_to_ns100 uh ul) * 100 * cpus := by
      unfold u64mod
      unfold u64Max at h3
      omega
    simp only [Windows.cpu_time]
    rw [e1, e2, e3]
  refine ⟨hcpu, ?_⟩
  intro kh kl uh ul cpus now hnow h1 h2 h3
  simp only [Windows.processCpuOnWindows, Except.map]
  rw [hcpu kh kl uh ul cpus h1 h2 h3]
  simp only [ProcessStat.cpu]
  have hn : ((now : ℕ) : ℚ) ≠ 0 := Nat.cast_ne_zero.mpr hnow.ne'
  have hden : durAsSecsF64 (instSatDurSince now 0) ≠ 0 := by
    unfold durAsSecsF64 instSatDurSince
    simp only [Nat.sub_zero]
    positivity
  rw [fdiv_fin _ _ hden]
  have harg : durSatSub ((filetime_to_ns100 kh kl + filetime_to_ns100 uh ul) * 100 * cpus) 0
      = (filetime_to_ns100 kh kl + filetime_to_ns100 uh ul) * 100 * cpus :=
    Nat.sub_zero _
  rw [harg]
  have hq : durAsSecsF64 ((filetime_to_ns100 kh kl + filetime_to_ns100 uh ul) * 100 * cpus)
      / durAsSecsF64 (instSatDurSince now 0)
      = (((filetime_to_ns100 kh kl + filetime_to_ns100 uh ul) * 100 * cpus : ℕ) : ℚ)
        / ((now : ℕ) : ℚ) := by
    unfold durAsSecsF64 instSatDurSince
    simp only [Nat.sub_zero]
    field_simp
  rw [hq]

/-- Witness for the amended claim C7 at concrete inputs. -/
theorem C7_witness :
    (filetime_to_ns100 0 0 + filetime_to_ns100 0 1 ≤ u64Max
      ∧ (filetime_to_ns100 0 0 + filetime_to_ns100 0 1) * 100 ≤ u64Max
      ∧ (filetime_to_ns100 0 0 + filetime_to_ns100 0 1) * 100 * 2 ≤ u64Max
      ∧ (0 : ℕ) < 10 ^ 9)
  ∧ Windows.cpu_time 0 0 0 1 2 = (filetime_to_ns100 0 0 + filetime_to_ns100 0 1) * 100 * 2
  ∧ (Windows.processCpuOnWindows (0, 0) (Except.ok (0, 0, 0, 1)) 2 (10 ^ 9)).2
      = Except.ok (FVal.fin
          ((((filetime_to_ns100 0 0 + filetime_to_ns100 0 1) * 100 * 2 : ℕ) : ℚ)
            / (((10 ^ 9 : ℕ) : ℕ) : ℚ))) := by
  have h1 : filetime_to_ns100 0 0 + filetime_to_ns100 0 1 ≤ u64Max := by decide
  have h2 : (filetime_to_ns100 0 0 + filetime_to_ns100 0 1) * 100 ≤ u64Max := by decide
  have h3 : (filetime_to_ns100 0 0 + filetime_to_ns100 0 1) * 100 * 2 ≤ u64Max := by decide
  exact ⟨⟨h1, h2, h3, by norm_num⟩, C7_amended.1 0 0 0 1 2 h1 h2 h3,
         C7_amended.2 0 0 0 1 2 (10 ^ 9) (by norm_num) h1 h2 h3⟩

/-- Claim C8: tick-based normalization converts the four stat fields to
seconds independently and sums them; a negative sum is rejected with an
error, and every successfully returned duration is non-negative. -/
theorem C8_theorem (tps utime stime : ℕ) (cutime cstime : ℤ) (htps : 0 < tps) :
    (AndroidLinux.get_stat_cputime tps utime stime cutime cstime
        = if ((utime : ℚ) + (stime : ℚ) + (cutime : ℚ) + (cstime : ℚ)) / (tps : ℚ) < 0
          then Except.error Err.negativeCputime
          else Except.ok (((utime : ℚ) + (stime : ℚ) + (cutime : ℚ) + (cstime : ℚ)) / (tps : ℚ)))
    ∧ ∀ d, AndroidLinux.get_stat_cputime tps utime stime cutime cstime = Except.ok d →
        0 ≤ d := by
  have hne : tps ≠ 0 := htps.ne'
  have hsum : ((utime : ℤ) : ℚ) / (tps : ℚ) + ((stime : ℤ) : ℚ) / (tps : ℚ)
        + (cutime : ℚ) / (tps : ℚ) + (cstime : ℚ) / (tps : ℚ)
      = ((utime : ℚ) + (stime : ℚ) + (cutime : ℚ) + (cstime : ℚ)) / (tps : ℚ) := by
    push_cast
    rw [div_add_div_same, div_add_div_same, div_add_div_same]
  have main : AndroidLinux.get_stat_cputime tps utime stime cutime cstime
      = if ((utime : ℚ) + (stime : ℚ) + (cutime : ℚ) + (cstime : ℚ)) / (tps : ℚ) < 0
        then Except.error Err.negativeCputime
        else Except.ok (((utime : ℚ) + (stime : ℚ) + (cutime : ℚ) + (cstime : ℚ)) / (tps : ℚ)) := by
    simp only [AndroidLinux.get_stat_cputime, AndroidLinux.ticks_to_seconds, if_neg hne,
      Bind.bind, Except.bind]
    rw [hsum]
    by_cases hlt : ((utime : ℚ) + (stime : ℚ) + (cutime : ℚ) + (cstime : ℚ)) / (tps : ℚ) < 0
    · rw [if_pos hlt, if_pos hlt]
    · rw [if_neg hlt, if_neg hlt, abs_of_nonneg (not_lt.mp hlt)]
  refine ⟨main, ?_⟩
  intro d hd
  rw [main] at hd
  by_cases hlt : ((utime : ℚ) + (stime : ℚ) + (cutime : ℚ) + (cstime : ℚ)) / (tps : ℚ) < 0
  · rw [if_pos hlt] at hd
    cases hd
  · rw [if_neg hlt] at hd
    injection hd with h
    exact h ▸ not_lt.mp hlt

/-- Witness for claim C8 at concrete inputs. -/
theorem C8_witness :
    (0 < 2) ∧
      AndroidLinux.get_stat_cputime 2 1 0 0 0
        = if (((1 : ℕ) : ℚ) + ((0 : ℕ) : ℚ) + ((0 : ℤ) : ℚ) + ((0 : ℤ) : ℚ)) / ((2 : ℕ) : ℚ) < 0
          then Except.error Err.negativeCputime
          else Except.ok ((((1 : ℕ) : ℚ) + ((0 : ℕ) : ℚ) + ((0 : ℤ) : ℚ) + ((0 : ℤ) : ℚ)) / ((2 : ℕ) : ℚ)) :=
  ⟨by norm_num, (C8_theorem 2 1 0 0 0 (by norm_num)).1⟩

/-- Claim C9: the seconds+microseconds normalizer converts each field
independently, clamping a negative field to zero, combines with a
saturating add that cannot overflow for 32-bit fields, and always returns
a well-defined non-negative duration without panicking. -/
theorem C9_theorem (s us : ℤ) (hs1 : -(2 ^ 31) ≤ s) (hs2 : s < 2 ^ 31)
    (hu1 : -(2 ^ 31) ≤ us) (hu2 : us < 2 ^ 31) :
    IosMacos.time_value_to_duration ⟨s, us⟩
      = (max s 0).toNat * 10 ^ 9 + (max us 0).toNat * 1000
    ∧ IosMacos.time_value_to_duration ⟨s, us⟩ ≤ durMax := by
  constructor
  · simp only [IosMacos.time_value_to_duration, durSatAdd, durFromSecs, durFromMicros,
      u64OfInt, durMax, u64Max]
    split_ifs with h1 h2 h2 <;> push_cast at * <;> omega
  · simp only [IosMacos.time_value_to_duration, durSatAdd]
    exact min_le_left _ _

/-- Witness for claim C9 at concrete inputs. -/
theorem C9_witness :
    (-(2 ^ 31) ≤ (-5 : ℤ)) ∧ ((-5 : ℤ) < 2 ^ 31) ∧ (-(2 ^ 31) ≤ (7 : ℤ)) ∧ ((7 : ℤ) < 2 ^ 31)
    ∧ IosMacos.time_value_to_duration ⟨-5, 7⟩
        = (max (-5 : ℤ) 0).toNat * 10 ^ 9 + (max (7 : ℤ) 0).toNat * 1000 :=
  ⟨by norm_num, by norm_num, by norm_num, by norm_num,
   (C9_theorem (-5) 7 (by norm_num) (by norm_num) (by norm_num) (by norm_num)).1⟩

/-- Claim C10: on the tick-based platform `ThreadStat::cpu_time` uses
`Duration::saturating_sub`, so a regressed cpu counter yields a zero
(never negative) delta, even though `ThreadStat::cpu_usage` on the same
handle surfaces the same regression as a negative ratio. -/
theorem C10_theorem :
    (∀ st c now, c < st.1 →
        (AndroidLinux.ThreadStat.cpu_time st (Except.ok c) now).2 = Except.ok 0)
  ∧ (∀ st c now, c < st.1 → st.2 < now →
        (AndroidLinux.ThreadStat.cpu_usage st (Except.ok c) now).2
          = Except.ok (FVal.fin
              (-(durAsSecsF64 (st.1 - c)) / durAsSecsF64 (instSatDurSince now st.2)))
        ∧ -(durAsSecsF64 (st.1 - c)) / durAsSecsF64 (instSatDurSince now st.2) < 0) := by
  constructor
  · intro st c now hc
    simp only [AndroidLinux.ThreadStat.cpu_time]
    rw [show durSatSub c st.1 = 0 from Nat.sub_eq_zero_of_le hc.le]
  · intro st c now hc hw
    have hden : (0 : ℚ) < durAsSecsF64 (instSatDurSince now st.2) :=
      durAsSecsF64_pos _ (by unfold instSatDurSince; omega)
    have hnum : -(durAsSecsF64 (st.1 - c)) < 0 :=
      neg_neg_of_pos (durAsSecsF64_pos _ (by omega))
    refine ⟨?_, div_neg_of_neg_of_pos hnum hden⟩
    simp only [AndroidLinux.ThreadStat.cpu_usage]
    rw [if_neg (not_le.mpr hc), fdiv_fin _ _ hden.ne']

/-- Witness for claim C10 at concrete inputs. -/
theorem C10_witness :
    (2 : ℕ) < 4 ∧ (1 : ℕ) < 3 ∧
      (AndroidLinux.ThreadStat.cpu_time (4, 1) (Except.ok 2) 3).2 = Except.ok 0 ∧
      -(durAsSecsF64 (4 - 2)) / durAsSecsF64 (instSatDurSince 3 1) < 0 :=
  ⟨by norm_num, by norm_num, C10_theorem.1 (4, 1) 2 3 (by norm_num),
   (C10_theorem.2 (4, 1) 2 3 (by norm_num) (by norm_num)).2⟩
